import Mathlib

/-!
Shallow embedding of `src/web/vns/models.py` (the VNS Django schema), in
particular the `IPAssignment` helper methods `get_ip`, `get_mask` and
`get_mac`, together with the declared choice set of `IPAssignment.mask`.

Byte strings (Python 2 `str`) are modelled as `List Nat` with entries below
256.  Fallible Python calls are modelled with `Option`: `none` stands for a
raised exception (`socket.error`, `ValueError`, `struct.error`).

`get_ip` delegates to C `inet_aton` (via `socket.inet_aton` on Linux), which
accepts the full "numbers-and-dots" notation: 1 to 4 dot-separated numbers,
each written in decimal, octal (leading `0`) or hex (leading `0x`), with the
last number filling all remaining bytes.  We embed the glibc implementation
(`strtoul`-based numeric parsing, per-part range checks, exact-match
trailing check).
-/

namespace VNS

/-- Big-endian 4-byte encoding, as produced by `struct.pack` with format
`>I` (the argument is checked to fit 32 bits before this is applied). -/
def packBE4 (v : Nat) : List Nat :=
  [v / 2 ^ 24 % 256, v / 2 ^ 16 % 256, v / 2 ^ 8 % 256, v % 256]

/-- ASCII decimal digit test on byte values. -/
def isDigitB (c : Nat) : Bool := 48 ≤ c && c ≤ 57

/-- Value of an ASCII hex digit, `none` when `c` is not one. -/
def hexVal (c : Nat) : Option Nat :=
  if 48 ≤ c && c ≤ 57 then some (c - 48)
  else if 97 ≤ c && c ≤ 102 then some (c - 87)
  else if 65 ≤ c && c ≤ 70 then some (c - 55)
  else none

/-- Value of an ASCII octal digit, `none` when `c` is not one. -/
def octVal (c : Nat) : Option Nat :=
  if 48 ≤ c && c ≤ 55 then some (c - 48) else none

/-- Value of an ASCII decimal digit, `none` when `c` is not one. -/
def decVal (c : Nat) : Option Nat :=
  if 48 ≤ c && c ≤ 57 then some (c - 48) else none

/-- Consume the maximal run of digits of the given base, accumulating their
value; returns the value and the unconsumed remainder. -/
def scanDigits (dv : Nat → Option Nat) (base : Nat) : Nat → List Nat → Nat × List Nat
  | acc, [] => (acc, [])
  | acc, c :: cs =>
    match dv c with
    | some d => scanDigits dv base (acc * base + d) cs
    | none => (acc, c :: cs)

/-- `strtoul(cp, &endp, 0)` as used by glibc `inet_aton`, for a string whose
first character is a digit: `0x`/`0X` prefix means hex, a leading `0` means
octal, otherwise decimal; returns the parsed value and the remainder.
Values are unbounded here; the caller applies the 32-bit range check. -/
def strtoul0 : List Nat → Option (Nat × List Nat)
  | [] => none
  | c :: cs =>
    if ¬ isDigitB c then none
    else if c = 48 then
      match cs with
      | [] => some (0, ([] : List Nat))
      | x :: rest =>
        if x = 120 ∨ x = 88 then
          match rest with
          | [] => some (0, x :: rest)
          | d :: _ =>
            if (hexVal d).isSome then some (scanDigits hexVal 16 0 rest)
            else some (0, x :: rest)
        else some (scanDigits octVal 8 0 cs)
    else some (scanDigits decVal 10 0 (c :: cs))

/-- The main loop of glibc `inet_aton`: repeatedly parse a number; after each
number, a `.` stores it as the next part (at most 3 stored parts, each at
most `0xff`) and continues; anything else stops the loop.  Returns the
stored parts, the final number, and the unconsumed remainder.  The fuel is 4
because at most three parts can be stored before the guard fails. -/
def atonLoop : Nat → List Nat → List Nat → Option (List Nat × Nat × List Nat)
  | 0, _, _ => none
  | fuel + 1, parts, cs =>
    match cs with
    | [] => none
    | c :: _ =>
      if ¬ isDigitB c then none
      else
        match strtoul0 cs with
        | none => none
        | some (v, rest) =>
          if 0xffffffff < v then none
          else
            match rest with
            | r :: rest2 =>
              if r = 46 then
                if 2 < parts.length ∨ 0xff < v then none
                else atonLoop fuel (parts ++ [v]) rest2
              else some (parts, v, r :: rest2)
            | [] => some (parts, v, ([] : List Nat))

/-- Upper bound for the final number, by number of stored parts: the last
number fills all bytes not covered by stored parts. -/
def maxPart : Nat → Nat
  | 0 => 0xffffffff
  | 1 => 0xffffff
  | 2 => 0xffff
  | _ => 0xff

/-- Big-endian encoding of `v` in `n` bytes. -/
def beBytes : Nat → Nat → List Nat
  | 0, _ => []
  | n + 1, v => v / 2 ^ (8 * n) % 256 :: beBytes n v

/-- glibc `inet_aton` (the exact variant: no trailing characters allowed),
returning the 4 address bytes in network order, or `none` on failure. -/
def inet_aton (s : List Nat) : Option (List Nat) :=
  match atonLoop 4 [] s with
  | none => none
  | some (parts, v, rest) =>
    if rest = ([] : List Nat) ∧ v ≤ maxPart parts.length then
      some (parts ++ beBytes (4 - parts.length) v)
    else none

/-- `IPAssignment.get_ip`: `return inet_aton(self.ip)`.  The stored text is
passed through unchanged; a `socket.error` is `none`. -/
def get_ip (ip : List Nat) : Option (List Nat) := inet_aton ip

/-- `IPAssignment.get_mask`:
`return struct.pack('>I', 0xffffffff ^ (1 << 32 - self.mask) - 1)`.
Python precedence makes the packed value
`0xffffffff ^ ((1 << (32 - mask)) - 1)`.  A negative shift count raises
`ValueError` and a packed value outside 32 bits raises `struct.error`;
both are `none`. -/
def get_mask (mask : Int) : Option (List Nat) :=
  if 32 - mask < 0 then none
  else
    let v := 0xffffffff ^^^ (2 ^ (32 - mask).toNat - 1)
    if v < 2 ^ 32 then some (packBE4 v) else none

/-- ASCII bytes of a Lean string (all inputs used here are ASCII, matching
Python 2 `str` byte semantics). -/
def ascii (s : String) : List Nat := s.data.map Char.toNat

/-! ### MD5 (RFC 1321), as invoked by `hashlib.md5(...).digest()` -/

/-- The 64 MD5 sine-derived round constants. -/
def md5K : List Nat :=
  [0xd76aa478, 0xe8c7b756, 0x242070db, 0xc1bdceee,
   0xf57c0faf, 0x4787c62a, 0xa8304613, 0xfd469501,
   0x698098d8, 0x8b44f7af, 0xffff5bb1, 0x895cd7be,
   0x6b901122, 0xfd987193, 0xa679438e, 0x49b40821,
   0xf61e2562, 0xc040b340, 0x265e5a51, 0xe9b6c7aa,
   0xd62f105d, 0x02441453, 0xd8a1e681, 0xe7d3fbc8,
   0x21e1cde6, 0xc33707d6, 0xf4d50d87, 0x455a14ed,
   0xa9e3e905, 0xfcefa3f8, 0x676f02d9, 0x8d2a4c8a,
   0xfffa3942, 0x8771f681, 0x6d9d6122, 0xfde5380c,
   0xa4beea44, 0x4bdecfa9, 0xf6bb4b60, 0xbebfbc70,
   0x289b7ec6, 0xeaa127fa, 0xd4ef3085, 0x04881d05,
   0xd9d4d039, 0xe6db99e5, 0x1fa27cf8, 0xc4ac5665,
   0xf4292244, 0x432aff97, 0xab9423a7, 0xfc93a039,
   0x655b59c3, 0x8f0ccc92, 0xffeff47d, 0x85845dd1,
   0x6fa87e4f, 0xfe2ce6e0, 0xa3014314, 0x4e0811a1,
   0xf7537e82, 0xbd3af235, 0x2ad7d2bb, 0xeb86d391]

/-- The 64 MD5 per-round left-rotation amounts. -/
def md5S : List Nat :=
  [7, 12, 17, 22, 7, 12, 17, 22, 7, 12, 17, 22, 7, 12, 17, 22,
   5, 9, 14, 20, 5, 9, 14, 20, 5, 9, 14, 20, 5, 9, 14, 20,
   4, 11, 16, 23, 4, 11, 16, 23, 4, 11, 16, 23, 4, 11, 16, 23,
   6, 10, 15, 21, 6, 10, 15, 21, 6, 10, 15, 21, 6, 10, 15, 21]

/-- 32-bit left rotation (arguments below `2 ^ 32`, `n` below 32). -/
def rotl32 (x n : Nat) : Nat := ((x <<< n) ||| (x >>> (32 - n))) % 2 ^ 32

/-- One MD5 round applied to the state `(a, b, c, d)`. -/
def md5Round (M : List Nat) (st : Nat × Nat × Nat × Nat) (i : Nat) :
    Nat × Nat × Nat × Nat :=
  let a := st.1
  let b := st.2.1
  let c := st.2.2.1
  let d := st.2.2.2
  let f :=
    if i < 16 then (b &&& c) ||| ((b ^^^ 0xffffffff) &&& d)
    else if i < 32 then (d &&& b) ||| ((d ^^^ 0xffffffff) &&& c)
    else if i < 48 then b ^^^ c ^^^ d
    else c ^^^ (b ||| (d ^^^ 0xffffffff))
  let g :=
    if i < 16 then i
    else if i < 32 then (5 * i + 1) % 16
    else if i < 48 then (3 * i + 5) % 16
    else 7 * i % 16
  let f2 := (f + a + md5K.getD i 0 + M.getD g 0) % 2 ^ 32
  (d, (b + rotl32 f2 (md5S.getD i 0)) % 2 ^ 32, b, c)

/-- Process one 64-byte block (given as its 16 little-endian words). -/
def md5Block (st : Nat × Nat × Nat × Nat) (M : List Nat) :
    Nat × Nat × Nat × Nat :=
  let r := (List.range 64).foldl (md5Round M) st
  ((st.1 + r.1) % 2 ^ 32, (st.2.1 + r.2.1) % 2 ^ 32,
   (st.2.2.1 + r.2.2.1) % 2 ^ 32, (st.2.2.2 + r.2.2.2) % 2 ^ 32)

/-- Little-endian encoding of `v` in `n` bytes. -/
def leBytes : Nat → Nat → List Nat
  | 0, _ => []
  | n + 1, v => v % 256 :: leBytes n (v / 256)

/-- MD5 padding: a `0x80` byte, zeros to 56 mod 64, then the bit length as
8 little-endian bytes. -/
def md5Pad (msg : List Nat) : List Nat :=
  msg ++ 0x80 :: List.replicate ((119 - msg.length % 64) % 64) 0
      ++ leBytes 8 (msg.length * 8 % 2 ^ 64)

/-- Group a byte list into 16 little-endian 32-bit words per 64-byte block. -/
def toWordsLE : List Nat → List Nat
  | b0 :: b1 :: b2 :: b3 :: rest =>
    (b0 + 256 * b1 + 65536 * b2 + 16777216 * b3) :: toWordsLE rest
  | _ => []

/-- Split into 64-byte chunks (the input length is a multiple of 64). -/
def chunksAux : Nat → List Nat → List (List Nat)
  | 0, _ => []
  | n + 1, l => if l = [] then [] else l.take 64 :: chunksAux n (l.drop 64)

def chunks64 (l : List Nat) : List (List Nat) := chunksAux (l.length / 64 + 1) l

/-- The 16-byte MD5 digest of a byte string. -/
def md5 (msg : List Nat) : List Nat :=
  let st := (chunks64 (md5Pad msg)).foldl (fun st blk => md5Block st (toWordsLE blk))
      (0x67452301, 0xefcdab89, 0x98badcfe, 0x10325476)
  leBytes 4 st.1 ++ leBytes 4 st.2.1 ++ leBytes 4 st.2.2.1 ++ leBytes 4 st.2.2.2

/-- `IPAssignment.get_mac`:
`return '\x00' + hashlib.md5(self.ip).digest()[0:5]` — one zero byte
followed by the first 5 digest bytes.  Total: it validates nothing and
cannot fail on a byte string. -/
def get_mac (ip : List Nat) : List Nat := 0 :: (md5 ip).take 5

/-- `IPAssignment.mask` declared choices, from
`tuple([(i, u'/%d'%i) for i in range(1,33)])`: the allowed values paired
with their `/n` labels. -/
def decAsciiAux : Nat → Nat → List Nat
  | 0, _ => []
  | fuel + 1, n =>
    if n < 10 then [48 + n] else decAsciiAux fuel (n / 10) ++ [48 + n % 10]

/-- ASCII decimal rendering of `n ≤ 255` (no leading zeros). -/
def decAscii (n : Nat) : List Nat := decAsciiAux 3 n

def mask_choices : List (Nat × List Nat) :=
  (List.range' 1 32).map fun i => (i, 47 :: decAscii i)

/-- Modelled from the spec: the validation step of the persistence layer
(not part of this source fragment), which "rejects with a RangeError before
it is persisted" any enum field assigned "a value outside its declared
choice set".  `none` stands for the RangeError; a valid mask is persisted
unchanged. -/
def validate_mask (m : Nat) : Option Nat :=
  if m ∈ mask_choices.map Prod.fst then some m else none

/-! ### Spec-side definitions (for refinement-style claims)

These follow the spec's words, to be compared with the embedded code. -/

/-- Split a byte string at `.` (ASCII 46). -/
def splitDots (s : List Nat) : List (List Nat) :=
  s.foldr
    (fun c acc =>
      if c = 46 then [] :: acc
      else
        match acc with
        | g :: gs => (c :: g) :: gs
        | [] => [[c]])
    [[]]

/-- Decimal value of a digit string. -/
def decValue (p : List Nat) : Nat := p.foldl (fun a c => a * 10 + (c - 48)) 0

/-- Spec's notion of one dotted-quad component: 1–3 decimal digits whose
value is at most 255 (leading zeros permitted, read as decimal). -/
def validPartSpec (p : List Nat) : Bool :=
  !p.isEmpty && p.all isDigitB && p.length ≤ 3 && decValue p ≤ 255

/-- Spec's notion of "a syntactically valid dotted-quad IPv4 address":
exactly four decimal components separated by dots. -/
def isDottedQuadSpec (s : List Nat) : Bool :=
  (splitDots s).length = 4 && (splitDots s).all validPartSpec

/-- Canonical dotted-quad rendering of 4 bytes (each below 256): decimal
components without leading zeros, joined by dots. -/
def renderQuad : List Nat → List Nat
  | [a, b, c, d] =>
    decAscii a ++ 46 :: decAscii b ++ 46 :: decAscii c ++ 46 :: decAscii d
  | _ => []

/-! ### Basic lemmas -/

lemma leBytes_length : ∀ n v, (leBytes n v).length = n := by
  intro n
  induction n with
  | zero => intro v; rfl
  | succ n ih => intro v; simp [leBytes, ih]

lemma beBytes_length : ∀ n v, (beBytes n v).length = n := by
  intro n
  induction n with
  | zero => intro v; rfl
  | succ n ih => intro v; simp [beBytes, ih]

lemma md5_length (msg : List Nat) : (md5 msg).length = 16 := by
  simp [md5, leBytes_length]

lemma get_mac_eq (ip : List Nat) : get_mac ip = 0 :: (md5 ip).take 5 := rfl

lemma get_mac_length (ip : List Nat) : (get_mac ip).length = 6 := by
  simp [get_mac, md5_length]

lemma packBE4_length (v : Nat) : (packBE4 v).length = 4 := rfl

lemma get_mask_in_range (m : Int) (h1 : 1 ≤ m) (h2 : m ≤ 32) :
    get_mask m = some (packBE4 (0xffffffff ^^^ (2 ^ (32 - m).toNat - 1))) := by
  have hk : (32 - m).toNat ≤ 31 := by omega
  unfold get_mask
  rw [if_neg (by omega), if_pos]
  exact Nat.xor_lt_two_pow (by norm_num)
    (by
      have : (2 : Nat) ^ (32 - m).toNat ≤ 2 ^ 31 := Nat.pow_le_pow_right (by norm_num) hk
      omega)

lemma get_mask_gt32 (m : Int) (h : 32 < m) : get_mask m = none := by
  unfold get_mask
  rw [if_pos (by omega)]

lemma get_mask_neg (m : Int) (h : m < 0) : get_mask m = none := by
  have hk : 33 ≤ (32 - m).toNat := by omega
  unfold get_mask
  rw [if_neg (by omega), if_neg]
  intro hlt
  have hbit : (0xffffffff ^^^ (2 ^ (32 - m).toNat - 1)).testBit 32 = true := by
    rw [Nat.testBit_xor]
    have h1 : (0xffffffff : Nat) = 2 ^ 32 - 1 := by norm_num
    rw [h1, Nat.testBit_two_pow_sub_one, Nat.testBit_two_pow_sub_one]
    simp
    omega
  have := Nat.testBit_lt_two_pow hlt
  rw [this] at hbit
  exact Bool.false_ne_true hbit

lemma get_mask_length (m : Int) (bs : List Nat) (h : get_mask m = some bs) :
    bs.length = 4 := by
  unfold get_mask at h
  split at h
  · exact absurd h (by simp)
  · simp only [] at h
    split at h
    · cases h
      exact packBE4_length _
    · exact absurd h (by simp)

/-! ### Choice-set lemmas -/

lemma mask_choices_fst : mask_choices.map Prod.fst = List.range' 1 32 := by
  simp [mask_choices, Function.comp_def]

lemma mem_mask_choices (m : Nat) :
    m ∈ mask_choices.map Prod.fst ↔ 1 ≤ m ∧ m ≤ 32 := by
  rw [mask_choices_fst, List.mem_range'_1]
  omega

lemma validate_mask_iff (m : Nat) :
    validate_mask m = some m ↔ 1 ≤ m ∧ m ≤ 32 := by
  unfold validate_mask
  rw [← mem_mask_choices]
  split <;> simp_all

/-! ### Parsing lemmas: `inet_aton` on canonical dotted quads -/

set_option maxRecDepth 10000

lemma decAscii_facts :
    ∀ n < 256, decAscii n ≠ [] ∧ (decAscii n).all isDigitB = true ∧
      decValue (decAscii n) = n ∧ (1 ≤ n → (decAscii n).head? ≠ some 48) := by
  decide

lemma decVal_eq_digit (c : Nat) (h : isDigitB c = true) :
    decVal c = some (c - 48) := by
  unfold isDigitB at h
  unfold decVal
  rw [if_pos h]

lemma decVal_eq_none (c : Nat) (h : isDigitB c = false) : decVal c = none := by
  unfold isDigitB at h
  unfold decVal
  rw [if_neg]
  simp [h]

lemma scan_dec :
    ∀ (ds : List Nat), ds.all isDigitB = true →
      ∀ acc r, (∀ c t, r = c :: t → isDigitB c = false) →
        scanDigits decVal 10 acc (ds ++ r) =
          (ds.foldl (fun a c => a * 10 + (c - 48)) acc, r) := by
  intro ds
  induction ds with
  | nil =>
    intro _ acc r hr
    cases r with
    | nil => rfl
    | cons c t =>
      simp only [List.nil_append, List.foldl_nil]
      unfold scanDigits
      rw [decVal_eq_none c (hr c t rfl)]
  | cons c cs ih =>
    intro hall acc r hr
    simp only [List.all_cons, Bool.and_eq_true] at hall
    simp only [List.cons_append, List.foldl_cons]
    unfold scanDigits
    rw [decVal_eq_digit c hall.1]
    exact ih hall.2 _ r hr

lemma foldl_dec_eq_decValue (p : List Nat) :
    p.foldl (fun a c => a * 10 + (c - 48)) 0 = decValue p := rfl

lemma strtoul0_dec_dot (n : Nat) (hn : n < 256) (t : List Nat) :
    strtoul0 (decAscii n ++ 46 :: t) = some (n, 46 :: t) := by
  rcases Nat.eq_zero_or_pos n with rfl | hpos
  · show strtoul0 (48 :: 46 :: t) = some (0, 46 :: t)
    simp [strtoul0, scanDigits, octVal, isDigitB]
  · obtain ⟨hne, hall, hval, hhead⟩ := decAscii_facts n hn
    obtain ⟨d, ds, hds⟩ := List.exists_cons_of_ne_nil hne
    have hd : isDigitB d = true := by
      rw [hds] at hall
      simp only [List.all_cons, Bool.and_eq_true] at hall
      exact hall.1
    have hd48 : d ≠ 48 := by
      intro hcontra
      apply hhead hpos
      rw [hds, hcontra]
      rfl
    rw [hds, List.cons_append]
    simp only [strtoul0]
    rw [if_neg (by simp [hd]), if_neg hd48, ← List.cons_append]
    rw [scan_dec (d :: ds) (by rw [← hds]; exact hall) 0 (46 :: t)
      (by intro c u hcu; cases hcu; rfl)]
    rw [foldl_dec_eq_decValue, ← hds, hval]

lemma strtoul0_dec_nil (n : Nat) (hn : n < 256) :
    strtoul0 (decAscii n) = some (n, ([] : List Nat)) := by
  rcases Nat.eq_zero_or_pos n with rfl | hpos
  · rfl
  · obtain ⟨hne, hall, hval, hhead⟩ := decAscii_facts n hn
    obtain ⟨d, ds, hds⟩ := List.exists_cons_of_ne_nil hne
    have hd : isDigitB d = true := by
      rw [hds] at hall
      simp only [List.all_cons, Bool.and_eq_true] at hall
      exact hall.1
    have hd48 : d ≠ 48 := by
      intro hcontra
      apply hhead hpos
      rw [hds, hcontra]
      rfl
    rw [hds]
    simp only [strtoul0]
    rw [if_neg (by simp [hd]), if_neg hd48]
    rw [show (d :: ds : List Nat) = (d :: ds) ++ [] from by simp]
    rw [scan_dec (d :: ds) (by rw [← hds]; exact hall) 0 []
      (by intro c u hcu; cases hcu)]
    rw [foldl_dec_eq_decValue, ← hds, hval]

lemma atonLoop_step (fuel : Nat) (parts : List Nat) (n : Nat) (t : List Nat)
    (hn : n < 256) (hp : parts.length ≤ 2) :
    atonLoop (fuel + 1) parts (decAscii n ++ 46 :: t) =
      atonLoop fuel (parts ++ [n]) t := by
  obtain ⟨hne, hall, _, _⟩ := decAscii_facts n hn
  obtain ⟨d, ds, hds⟩ := List.exists_cons_of_ne_nil hne
  have hd : isDigitB d = true := by
    rw [hds] at hall
    simp only [List.all_cons, Bool.and_eq_true] at hall
    exact hall.1
  rw [hds, List.cons_append]
  simp only [atonLoop]
  rw [if_neg (by simp [hd]), ← List.cons_append, ← hds, strtoul0_dec_dot n hn t]
  simp only []
  rw [if_neg (by omega)]
  simp only [if_true]
  rw [if_neg (by omega)]

lemma atonLoop_last (fuel : Nat) (parts : List Nat) (n : Nat) (hn : n < 256) :
    atonLoop (fuel + 1) parts (decAscii n) = some (parts, n, ([] : List Nat)) := by
  obtain ⟨hne, hall, _, _⟩ := decAscii_facts n hn
  obtain ⟨d, ds, hds⟩ := List.exists_cons_of_ne_nil hne
  have hd : isDigitB d = true := by
    rw [hds] at hall
    simp only [List.all_cons, Bool.and_eq_true] at hall
    exact hall.1
  rw [hds]
  simp only [atonLoop]
  rw [if_neg (by simp [hd]), ← hds, strtoul0_dec_nil n hn]
  simp only []
  rw [if_neg (by omega)]

lemma get_ip_render (a b c d : Nat)
    (ha : a < 256) (hb : b < 256) (hc : c < 256) (hd : d < 256) :
    get_ip (renderQuad [a, b, c, d]) = some [a, b, c, d] := by
  have hq : renderQuad [a, b, c, d] =
      decAscii a ++ 46 :: (decAscii b ++ 46 :: (decAscii c ++ 46 :: decAscii d)) := by
    simp [renderQuad]
  have e1 := atonLoop_step 3 [] a
    (decAscii b ++ 46 :: (decAscii c ++ 46 :: decAscii d)) ha (by simp)
  have e2 := atonLoop_step 2 [a] b
    (decAscii c ++ 46 :: decAscii d) hb (by simp)
  have e3 := atonLoop_step 1 [a, b] c (decAscii d) hc (by simp)
  have e4 := atonLoop_last 0 [a, b, c] d hd
  norm_num at e1 e2 e3 e4
  unfold get_ip inet_aton
  rw [hq, e1, e2, e3, e4]
  have hm : maxPart 3 = 255 := rfl
  have hd255 : d ≤ 255 := by omega
  simp [hm, hd255, beBytes, Nat.mod_eq_of_lt hd]

lemma atonLoop_parts_le :
    ∀ fuel parts cs out, parts.length ≤ 3 →
      atonLoop fuel parts cs = some out → out.1.length ≤ 3 := by
  intro fuel
  induction fuel with
  | zero =>
    intro parts cs out hp h
    simp [atonLoop] at h
  | succ f ih =>
    intro parts cs out hp h
    cases cs with
    | nil => simp [atonLoop] at h
    | cons c cs' =>
      simp only [atonLoop] at h
      split at h
      · exact absurd h (by simp)
      · split at h
        · exact absurd h (by simp)
        · rename_i v rest hs
          split at h
          · exact absurd h (by simp)
          · split at h
            · split at h
              · split at h
                · exact absurd h (by simp)
                · rename_i hguard
                  exact ih _ _ out (by simp; omega) h
              · cases h
                exact hp
            · cases h
              exact hp

lemma get_ip_length (s : List Nat) (bs : List Nat) (h : get_ip s = some bs) :
    bs.length = 4 := by
  unfold get_ip inet_aton at h
  cases hA : atonLoop 4 [] s with
  | none => rw [hA] at h; exact absurd h (by simp)
  | some out =>
    obtain ⟨parts, v, rest⟩ := out
    rw [hA] at h
    simp only [] at h
    split at h
    · cases h
      have hple : parts.length ≤ 3 :=
        atonLoop_parts_le 4 [] s (parts, v, rest) (by simp) hA
      simp [beBytes_length]
      omega
    · exact absurd h (by simp)

/-! ### Sanity anchors for the MD5 embedding -/

/-- The embedded MD5 reproduces the RFC 1321 test vector for the empty
message, `d41d8cd98f00b204e9800998ecf8427e`. -/
lemma md5_empty_vector :
    md5 [] = [0xd4, 0x1d, 0x8c, 0xd9, 0x8f, 0x00, 0xb2, 0x04,
              0xe9, 0x80, 0x09, 0x98, 0xec, 0xf8, 0x42, 0x7e] := by
  decide

/-- The embedded MD5 reproduces the RFC 1321 test vector for `"abc"`,
`900150983cd24fb0d6963f7d28e17f72`. -/
lemma md5_abc_vector :
    md5 (ascii "abc") = [0x90, 0x01, 0x50, 0x98, 0x3c, 0xd2, 0x4f, 0xb0,
                         0xd6, 0x96, 0x3f, 0x7d, 0x28, 0xe1, 0x7f, 0x72] := by
  decide

/-! ### Claim theorems -/

/-- Claim C1: for every prefix length `bits` in `[1, 32]`, `get_mask` returns
the 4-byte most-significant-byte-first encoding of
`0xFFFFFFFF XOR ((1 << (32 - bits)) - 1)`, whose bit `j` (for `j < 32`) is
set exactly when `j` is one of the high `bits` positions; in particular it
returns `[0xFF, 0xFF, 0xFF, 0x00]` for 24, `[0x80, 0, 0, 0]` for 1 and
`[0xFF, 0xFF, 0xFF, 0xFF]` for 32. -/
theorem C1_mask_from_prefix_length :
    (∀ bits : Int, 1 ≤ bits → bits ≤ 32 →
      get_mask bits =
        some (packBE4 (0xffffffff ^^^ (2 ^ (32 - bits).toNat - 1))) ∧
      ∀ j, j < 32 →
        (0xffffffff ^^^ (2 ^ (32 - bits).toNat - 1)).testBit j =
          decide ((32 - bits).toNat ≤ j)) ∧
    get_mask 24 = some [0xff, 0xff, 0xff, 0x00] ∧
    get_mask 1 = some [0x80, 0x00, 0x00, 0x00] ∧
    get_mask 32 = some [0xff, 0xff, 0xff, 0xff] := by
  refine ⟨?_, by decide, by decide, by decide⟩
  intro bits h1 h2
  refine ⟨get_mask_in_range bits h1 h2, ?_⟩
  intro j hj
  rw [show (0xffffffff : Nat) = 2 ^ 32 - 1 by norm_num, Nat.testBit_xor,
    Nat.testBit_two_pow_sub_one, Nat.testBit_two_pow_sub_one]
  by_cases hjk : j < (32 - bits).toNat
  · simp [hj, hjk, Nat.not_le.mpr hjk]
  · simp [hj, hjk, Nat.le_of_not_lt hjk]

/-- Witness for C1 at `bits = 24`. -/
theorem C1_witness :
    get_mask 24 = some (packBE4 (0xffffffff ^^^ (2 ^ ((32 : Int) - 24).toNat - 1))) :=
  (C1_mask_from_prefix_length.1 24 (by norm_num) (by norm_num)).1

/-- Claim C2 counterexample: the claim says every input outside `[1, 32]`
fails with a RangeError, and that input 0 in particular fails; but
`get_mask 0` raises nothing and returns the all-zero mask. -/
theorem C2_counterexample : get_mask 0 = some [0, 0, 0, 0] := by decide

/-- Claim C2 amended: every input above 32 fails (`ValueError`: negative
shift count) and every negative input fails (`struct.error`: value out of
range for `>I`); 33 in particular fails; but input 0 does not fail — it
silently returns the all-zero mask `[0, 0, 0, 0]`. -/
theorem C2_amended :
    (∀ m : Int, 32 < m → get_mask m = none) ∧
    (∀ m : Int, m < 0 → get_mask m = none) ∧
    get_mask 33 = none ∧
    get_mask 0 = some [0, 0, 0, 0] :=
  ⟨get_mask_gt32, get_mask_neg, by decide, by decide⟩

/-- Witness for C2 amended at `m = 40` and `m = -5`. -/
theorem C2_witness : get_mask 40 = none ∧ get_mask (-5) = none :=
  ⟨C2_amended.1 40 (by norm_num), C2_amended.2.1 (-5) (by norm_num)⟩

/-- Claim C3 counterexample: the claim says every input that is not a
syntactically valid dotted quad fails with a FormatError, but `"1.2.3"` is
not a dotted quad and `get_ip` accepts it (as `1.2.0.3`, the 3-part
numbers-and-dots form of `inet_aton`). -/
theorem C3_counterexample :
    isDottedQuadSpec (ascii "1.2.3") = false ∧
    get_ip (ascii "1.2.3") = some [1, 2, 0, 3] := by decide

/-- Claim C3 amended: `get_ip` accepts the full `inet_aton`
numbers-and-dots notation, a strict superset of dotted quads; every
successful parse yields exactly 4 bytes, every canonically written dotted
quad parses to its 4 bytes big-endian, and the claim's specific examples
`"999.1.1.1"` and `"not-an-ip"` do both fail. -/
theorem C3_amended :
    (∀ s bs, get_ip s = some bs → bs.length = 4) ∧
    (∀ a b c d : Nat, a < 256 → b < 256 → c < 256 → d < 256 →
      get_ip (renderQuad [a, b, c, d]) = some [a, b, c, d]) ∧
    get_ip (ascii "999.1.1.1") = none ∧
    get_ip (ascii "not-an-ip") = none :=
  ⟨get_ip_length, get_ip_render, by decide, by decide⟩

/-- Witness for C3 amended at `"10.0.0.1"` and at the bytes `10.0.0.1`. -/
theorem C3_witness :
    ([10, 0, 0, 1] : List Nat).length = 4 ∧
    get_ip (renderQuad [10, 0, 0, 1]) = some [10, 0, 0, 1] :=
  ⟨C3_amended.1 (ascii "10.0.0.1") [10, 0, 0, 1] (by decide),
   C3_amended.2.1 10 0 0 1 (by decide) (by decide) (by decide) (by decide)⟩

/-- Claim C4 counterexample: `"010.0.0.1"` is a dotted quad under the
spec's (leading-zeros-permitted, decimal) reading, but `inet_aton` reads
`010` as octal: the parse succeeds with bytes `8.0.0.1`, whose rendering
matches neither the input nor its canonical leading-zero-stripped form
`"10.0.0.1"`. -/
theorem C4_counterexample :
    isDottedQuadSpec (ascii "010.0.0.1") = true ∧
    get_ip (ascii "010.0.0.1") = some [8, 0, 0, 1] ∧
    renderQuad [8, 0, 0, 1] = ascii "8.0.0.1" ∧
    renderQuad (List.map decValue (splitDots (ascii "010.0.0.1"))) =
      ascii "10.0.0.1" ∧
    ascii "8.0.0.1" ≠ ascii "010.0.0.1" ∧
    ascii "8.0.0.1" ≠ ascii "10.0.0.1" := by decide

/-- Claim C4 amended: for every dotted-quad string written canonically
(each component decimal with no superfluous leading zeros), `get_ip`
round-trips exactly: it returns the 4 component bytes and rendering them
back reproduces the input string.  (Strings with superfluous leading
zeros are instead reinterpreted as octal, as the counterexample shows.) -/
theorem C4_amended :
    ∀ (s : List Nat) (a b c d : Nat), a < 256 → b < 256 → c < 256 → d < 256 →
      s = renderQuad [a, b, c, d] →
      get_ip s = some [a, b, c, d] ∧ renderQuad [a, b, c, d] = s := by
  rintro s a b c d ha hb hc hd rfl
  exact ⟨get_ip_render a b c d ha hb hc hd, rfl⟩

/-- Witness for C4 amended at `"10.0.0.1"`. -/
theorem C4_witness :
    get_ip (ascii "10.0.0.1") = some [10, 0, 0, 1] ∧
    renderQuad [10, 0, 0, 1] = ascii "10.0.0.1" :=
  C4_amended (ascii "10.0.0.1") 10 0 0 1 (by decide) (by decide) (by decide)
    (by decide) (by decide)

/-- Claim C5: for every address text, `get_mac` returns exactly one zero
byte followed by the first 5 bytes of the MD5 digest of the text's bytes,
so its output always has length 6 and first octet `0x00`. -/
theorem C5_derive_mac :
    ∀ ip : List Nat,
      get_mac ip = 0 :: (md5 ip).take 5 ∧
      (get_mac ip).length = 6 ∧
      (get_mac ip).head? = some 0 :=
  fun ip => ⟨rfl, get_mac_length ip, rfl⟩

/-- Claim C6: `get_mac` is deterministic — equal inputs give identical
outputs; in particular two calls on `"10.0.0.1"` agree, and the output is
6 bytes. -/
theorem C6_deterministic :
    (∀ s t : List Nat, s = t → get_mac s = get_mac t) ∧
    get_mac (ascii "10.0.0.1") = get_mac (ascii "10.0.0.1") ∧
    (get_mac (ascii "10.0.0.1")).length = 6 :=
  ⟨fun _ _ h => congrArg get_mac h, rfl, get_mac_length _⟩

/-- Witness for C6 at `"10.0.0.1"`. -/
theorem C6_witness :
    get_mac (ascii "10.0.0.1") = get_mac (ascii "10.0.0.1") :=
  C6_deterministic.1 (ascii "10.0.0.1") (ascii "10.0.0.1") rfl

/-- Claim C7: the distinct inputs `"10.0.0.1"` and `"10.0.0.2"` produce
unequal MAC values (their MD5 digests differ already at the first byte). -/
theorem C7_distinct_macs :
    get_mac (ascii "10.0.0.1") ≠ get_mac (ascii "10.0.0.2") := by decide

/-- Claim C8 counterexample: the claim says every invalid input raises and
no operation silently returns zeroed output, but the out-of-range mask 0
makes `get_mask` silently return the zeroed 4-byte mask. -/
theorem C8_counterexample :
    ¬ (1 ≤ (0 : Int) ∧ (0 : Int) ≤ 32) ∧
    get_mask 0 = some (List.replicate 4 0) := by decide

/-- Claim C8 amended: no operation ever returns a partial or truncated
result (every successful `get_mask` and `get_ip` is exactly 4 bytes and
every `get_mac` exactly 6), masks above 32 and negative masks raise, but
the invalid mask 0 silently returns the zeroed mask rather than raising. -/
theorem C8_amended :
    (∀ (m : Int) (bs : List Nat), get_mask m = some bs → bs.length = 4) ∧
    (∀ s bs, get_ip s = some bs → bs.length = 4) ∧
    (∀ s : List Nat, (get_mac s).length = 6) ∧
    (∀ m : Int, 32 < m → get_mask m = none) ∧
    (∀ m : Int, m < 0 → get_mask m = none) ∧
    get_mask 0 = some (List.replicate 4 0) :=
  ⟨get_mask_length, get_ip_length, get_mac_length, get_mask_gt32,
   get_mask_neg, by decide⟩

/-- Witness for C8 amended at mask 24, mask 33 and mask -1. -/
theorem C8_witness :
    ([255, 255, 255, 0] : List Nat).length = 4 ∧
    get_mask 33 = none ∧ get_mask (-1) = none :=
  ⟨C8_amended.1 24 [255, 255, 255, 0] (by decide),
   C8_amended.2.2.2.1 33 (by norm_num),
   C8_amended.2.2.2.2.1 (-1) (by norm_num)⟩

/-- Claim C9: the declared choice set of `IPAssignment.mask` is exactly the
integers 1 through 32, and the (spec-modelled) validation layer rejects a
mask of 33 before persistence while accepting exactly the declared
values. -/
theorem C9_mask_range_invariant :
    mask_choices.map Prod.fst = List.range' 1 32 ∧
    (∀ m : Nat, m ∈ mask_choices.map Prod.fst ↔ 1 ≤ m ∧ m ≤ 32) ∧
    validate_mask 33 = none ∧
    (∀ m : Nat, validate_mask m = some m ↔ 1 ≤ m ∧ m ≤ 32) :=
  ⟨mask_choices_fst, mem_mask_choices, by decide, validate_mask_iff⟩

/-- Witness for C9 at `m = 32`. -/
theorem C9_witness : validate_mask 32 = some 32 :=
  (C9_mask_range_invariant.2.2.2 32).mpr (by decide)

/-- Claim C10: `get_mac` is total — on every byte string, valid IPv4 text
or not, it raises nothing and returns exactly 6 bytes. -/
theorem C10_get_mac_total :
    (∀ s : List Nat, (get_mac s).length = 6) ∧
    (get_mac (ascii "not-an-ip")).length = 6 :=
  ⟨get_mac_length, get_mac_length _⟩

end VNS

